import Mathlib

/-!
Verification of the r2 CLI (src/main.rs): a command-line client for
Cloudflare R2. We shallowly embed the credential-resolution and
command-dispatch layer. External collaborators (the S3 client library,
the TOML syntactic parser, the filesystem, the process environment) are
modelled as explicit oracles passed in as parameters; the code under
verification is the glue written in main.rs: the env/file precedence
match, the config-file deserialization requirements coming from the
derive(Deserialize) structs, the endpoint/client construction, and the
per-subcommand call sequencing. Remote calls and local file reads are
recorded in an effect trace so that ordering and never-called
properties can be stated.
-/

namespace R2

/-! ### Data model: the derive(Deserialize) structs of main.rs -/

structure Credentials where
  access_key_id : String
  secret_access_key : String

structure Metadata where
  account_id : String

structure Config where
  credentials : Credentials
  metadata : Metadata

/-! ### The CLI surface (clap structs) -/

inductive Commands where
  | ls (bucket : Option String)
  | mv (bucket src dst : String)
  | cp (src dst : String)
  | rm (bucket key : String)

structure Args where
  command : Option Commands

/-! ### TOML values and the serde deserialization of Config

The syntactic TOML parse is external (the toml crate); a parsed
document is a tree of values. The derive(Deserialize) impls require a
table with the named string fields; unknown fields are ignored (serde
default), and a missing field or a wrong type is an error carrying a
diagnostic message. -/

inductive TomlValue where
  | str (s : String)
  | table (entries : List (String × TomlValue))
  | other

def tomlLookup (key : String) : List (String × TomlValue) → Option TomlValue
  | [] => none
  | (k, v) :: rest => if k = key then some v else tomlLookup key rest

def deserializeCredentials : TomlValue → Except String Credentials
  | .table entries =>
    match tomlLookup "access_key_id" entries with
    | none => .error "missing field access_key_id"
    | some (.str key) =>
      match tomlLookup "secret_access_key" entries with
      | none => .error "missing field secret_access_key"
      | some (.str secret) => .ok ⟨key, secret⟩
      | some _ => .error "invalid type for secret_access_key"
    | some _ => .error "invalid type for access_key_id"
  | _ => .error "invalid type: credentials must be a table"

def deserializeMetadata : TomlValue → Except String Metadata
  | .table entries =>
    match tomlLookup "account_id" entries with
    | none => .error "missing field account_id"
    | some (.str account) => .ok ⟨account⟩
    | some _ => .error "invalid type for account_id"
  | _ => .error "invalid type: metadata must be a table"

def deserializeConfig : TomlValue → Except String Config
  | .table entries =>
    match tomlLookup "credentials" entries with
    | none => .error "missing field credentials"
    | some credsVal =>
      match deserializeCredentials credsVal with
      | .error e => .error e
      | .ok creds =>
        match tomlLookup "metadata" entries with
        | none => .error "missing field metadata"
        | some metaVal =>
          match deserializeMetadata metaVal with
          | .error e => .error e
          | .ok meta => .ok ⟨creds, meta⟩
  | _ => .error "invalid type: config must be a table"

/-! ### Credential resolution (main.rs lines 98-118)

The environment is a partial map from variable name to value; a set but
empty variable is some "". The filesystem maps a path to its readable
contents, none meaning absent or unreadable. The TOML syntactic parser
is an oracle from file contents to a parsed document or a diagnostic. -/

abbrev Env := String → Option String

abbrev FS := String → Option String

abbrev TomlParser := String → Except String TomlValue

inductive ResolveError where
  | varError (name : String)
  | ioError (path : String)
  | configError (diag : String)

/-- Model of PathBuf::from(base).join(comp) for a relative comp: a
separator is inserted unless the base is empty or already ends in one. -/
def pathJoin (base comp : String) : String :=
  if base = "" then comp
  else if base.data.getLast? = some '/' then base ++ comp
  else base ++ "/" ++ comp

/-- PathBuf::from(home).join(".r2").join("config"). -/
def configPath (home : String) : String :=
  pathJoin (pathJoin home ".r2") "config"

/-- The fallback arm of the resolution match: read HOME, open
<home>/.r2/config, parse it as TOML, deserialize Config, and project
the triple. It receives only the HOME value — the R2_* variables are
out of its reach. -/
def fileResolve (home : Option String) (fs : FS) (tomlParse : TomlParser) :
    Except ResolveError (String × String × String) :=
  match home with
  | none => .error (.varError "HOME")
  | some h =>
    match fs (configPath h) with
    | none => .error (.ioError (configPath h))
    | some contents =>
      match tomlParse contents with
      | .error e => .error (.configError e)
      | .ok doc =>
        match deserializeConfig doc with
        | .error e => .error (.configError e)
        | .ok config =>
          .ok (config.credentials.access_key_id,
               config.credentials.secret_access_key,
               config.metadata.account_id)

/-- The credential-resolution match of main: the env path is taken
exactly when all three env::var calls return Ok; any other combination
falls to the file arm. -/
def resolveCredentials (env : Env) (fs : FS) (tomlParse : TomlParser) :
    Except ResolveError (String × String × String) :=
  match env "R2_ACCESS_KEY_ID", env "R2_SECRET_ACCESS_KEY", env "R2_ACCOUNT_ID" with
  | some key, some secret, some account => .ok (key, secret, account)
  | _, _, _ => fileResolve (env "HOME") fs tomlParse

/-! ### Client construction (main.rs lines 120-137) -/

structure StaticCredentials where
  accessKeyId : String
  secretAccessKey : String
  sessionToken : Option String
  expiresAfter : Option Nat
  providerName : String

structure ClientConfig where
  region : String
  endpointUrl : String
  credentialsProvider : StaticCredentials

def mkClientConfig (accessKeyId secretAccessKey accountId : String) : ClientConfig :=
  { region := "auto",
    endpointUrl := "https://" ++ accountId ++ ".r2.cloudflarestorage.com",
    credentialsProvider :=
      { accessKeyId := accessKeyId,
        secretAccessKey := secretAccessKey,
        sessionToken := none,
        expiresAfter := none,
        providerName := "r2" } }

/-! ### The dispatcher (main.rs lines 139-194)

Each remote call and each local file read is recorded, in issue order,
in a trace of effects. The remote API is an oracle giving each call its
outcome; list results carry Option values because bucket names and
object keys are optional in the wire model (unwrap_or_default renders a
missing one as the empty string). -/

inductive ApiCall where
  | listBuckets
  | listObjectsV2 (bucket : String)
  | copyObject (bucket copySource key : String)
  | deleteObject (bucket key : String)
  | putObject (bucket key : String) (body : List Nat)

inductive Effect where
  | api (call : ApiCall)
  | fsRead (path : String)

structure RemoteApi where
  listBuckets : Except String (List (Option String))
  listObjectsV2 : String → Except String (List (Option String))
  copyObject : String → String → String → Except String Unit
  deleteObject : String → String → Except String Unit
  putObject : String → String → List Nat → Except String Unit

inductive RunError where
  | remote (msg : String)
  | usage (msg : String)
  | ioErr (msg : String)

/-- str::splitn(2, sep): split at the first occurrence only. -/
def splitAtFirst (sep : Char) : List Char → Option (List Char × List Char)
  | [] => none
  | x :: xs =>
    if x = sep then some ([], xs)
    else
      match splitAtFirst sep xs with
      | none => none
      | some (l, r) => some (x :: l, r)

/-- dst.splitn(2, sep).collect::<Vec<_>>(): one part when sep is absent,
two parts (before-first, entire-rest) when present. -/
def splitn2 (s : String) (sep : Char) : List String :=
  match splitAtFirst sep s.data with
  | none => [s]
  | some (l, r) => [String.mk l, String.mk r]

/-- The match on args.command: returns the trace of issued effects and
either the printed output lines or the first error. -/
def dispatch (api : RemoteApi) (fsBytes : String → Except String (List Nat)) :
    Option Commands → List Effect × Except RunError (List String)
  | none => listBucketsRun api
  | some (.ls none) => listBucketsRun api
  | some (.ls (some bucket)) =>
    ([Effect.api (.listObjectsV2 bucket)],
      match api.listObjectsV2 bucket with
      | .error e => .error (.remote e)
      | .ok objects => .ok (objects.map (fun o => o.getD "")))
  | some (.mv bucket src dst) =>
    match api.copyObject bucket (bucket ++ "/" ++ src) dst with
    | .error e =>
      ([Effect.api (.copyObject bucket (bucket ++ "/" ++ src) dst)], .error (.remote e))
    | .ok _ =>
      match api.deleteObject bucket src with
      | .error e =>
        ([Effect.api (.copyObject bucket (bucket ++ "/" ++ src) dst),
          Effect.api (.deleteObject bucket src)], .error (.remote e))
      | .ok _ =>
        ([Effect.api (.copyObject bucket (bucket ++ "/" ++ src) dst),
          Effect.api (.deleteObject bucket src)], .ok [])
  | some (.cp src dst) =>
    match splitn2 dst '/' with
    | [bucket, key] =>
      match fsBytes src with
      | .error e => ([Effect.fsRead src], .error (.ioErr e))
      | .ok body =>
        ([Effect.fsRead src, Effect.api (.putObject bucket key body)],
          match api.putObject bucket key body with
          | .error e => .error (.remote e)
          | .ok _ => .ok [])
    | _ => ([], .error (.usage "Destination must be in format bucket/key"))
  | some (.rm bucket key) =>
    ([Effect.api (.deleteObject bucket key)],
      match api.deleteObject bucket key with
      | .error e => .error (.remote e)
      | .ok _ => .ok [])
where
  listBucketsRun (api : RemoteApi) : List Effect × Except RunError (List String) :=
    ([Effect.api .listBuckets],
      match api.listBuckets with
      | .error e => .error (.remote e)
      | .ok buckets => .ok (buckets.map (fun b => b.getD "")))

/-- The whole of main: resolve credentials, build the client
configuration once, then run the one requested command. -/
def mainRun (env : Env) (fs : FS) (tomlParse : TomlParser) (api : RemoteApi)
    (fsBytes : String → Except String (List Nat)) (args : Args) :
    Except ResolveError (ClientConfig × (List Effect × Except RunError (List String))) :=
  match resolveCredentials env fs tomlParse with
  | .error e => .error e
  | .ok (accessKeyId, secretAccessKey, accountId) =>
    .ok (mkClientConfig accessKeyId secretAccessKey accountId,
         dispatch api fsBytes args.command)

/-! ### Concrete oracles for witnesses -/

def apiAllOk : RemoteApi :=
  { listBuckets := .ok [],
    listObjectsV2 := fun _ => .ok [],
    copyObject := fun _ _ _ => .ok (),
    deleteObject := fun _ _ => .ok (),
    putObject := fun _ _ _ => .ok () }

def apiCopyFails : RemoteApi :=
  { apiAllOk with copyObject := fun _ _ _ => .error "copy failed" }

def apiDeleteFails : RemoteApi :=
  { apiAllOk with deleteObject := fun _ _ => .error "delete failed" }

def apiObjs : RemoteApi :=
  { apiAllOk with listObjectsV2 := fun _ => .ok [some "a", none, some "b"] }

def fsBytesStub : String → Except String (List Nat) := fun _ => .ok [104, 105]

def fsNone : FS := fun _ => none

def tomlParseStub : TomlParser := fun _ => .error "stub parse error"

/-! ### Helper lemmas -/

theorem splitAtFirst_eq_none {sep : Char} :
    ∀ {l : List Char}, splitAtFirst sep l = none ↔ sep ∉ l := by
  intro l
  induction l with
  | nil => simp [splitAtFirst]
  | cons x xs ih =>
    by_cases hx : x = sep
    · subst hx
      simp [splitAtFirst]
    · rw [splitAtFirst]
      simp only [if_neg hx]
      cases hs : splitAtFirst sep xs with
      | none => simp [hs, List.mem_cons, ih.mp hs, Ne.symm hx, hx]
      | some p =>
        simp only [List.mem_cons]
        constructor
        · intro h; cases h
        · intro h
          exfalso
          have : sep ∈ xs := by
            by_contra hmem
            rw [← ih] at hmem
            rw [hmem] at hs
            cases hs
          exact h (Or.inr this)

theorem splitAtFirst_append {sep : Char} :
    ∀ {l : List Char}, sep ∉ l → ∀ r : List Char,
      splitAtFirst sep (l ++ sep :: r) = some (l, r) := by
  intro l
  induction l with
  | nil => intro _ r; simp [splitAtFirst]
  | cons x xs ih =>
    intro h r
    simp only [List.mem_cons, not_or] at h
    rw [List.cons_append, splitAtFirst, if_neg (fun he => h.1 he.symm), ih h.2 r]

theorem string_data_append (s t : String) : (s ++ t).data = s.data ++ t.data := by
  cases s; cases t; rfl

theorem string_mk_data (s : String) : String.mk s.data = s := by
  cases s; rfl

theorem splitn2_no_sep {dst : String} (h : '/' ∉ dst.data) :
    splitn2 dst '/' = [dst] := by
  rw [splitn2, splitAtFirst_eq_none.mpr h]

theorem splitn2_sep {b : String} (hb : '/' ∉ b.data) (k : String) :
    splitn2 (b ++ "/" ++ k) '/' = [b, k] := by
  have hdata : (b ++ "/" ++ k).data = b.data ++ '/' :: k.data := by
    rw [string_data_append, string_data_append]
    simp
  rw [splitn2, hdata, splitAtFirst_append hb]

theorem resolve_fallback (env : Env) (fs : FS) (p : TomlParser)
    (h : env "R2_ACCESS_KEY_ID" = none ∨ env "R2_SECRET_ACCESS_KEY" = none ∨
      env "R2_ACCOUNT_ID" = none) :
    resolveCredentials env fs p = fileResolve (env "HOME") fs p := by
  cases hA : env "R2_ACCESS_KEY_ID" <;>
    cases hB : env "R2_SECRET_ACCESS_KEY" <;>
      cases hC : env "R2_ACCOUNT_ID" <;>
        simp_all [resolveCredentials]

theorem fileResolve_ok {home : Option String} {fs : FS} {p : TomlParser}
    {t : String × String × String} (h : fileResolve home fs p = .ok t) :
    ∃ hm contents doc cfg, home = some hm ∧ fs (configPath hm) = some contents ∧
      p contents = .ok doc ∧ deserializeConfig doc = .ok cfg ∧
      t = (cfg.credentials.access_key_id, cfg.credentials.secret_access_key,
        cfg.metadata.account_id) := by
  unfold fileResolve at h
  split at h
  · cases h
  · rename_i hm
    split at h
    · cases h
    · rename_i contents hcontents
      split at h
      · cases h
      · rename_i doc hdoc
        split at h
        · cases h
        · rename_i cfg hcfg
          cases h
          exact ⟨hm, contents, doc, cfg, rfl, hcontents, hdoc, hcfg, rfl⟩

theorem deserializeCredentials_ok {v : TomlValue} {creds : Credentials}
    (h : deserializeCredentials v = .ok creds) :
    ∃ entries, v = .table entries ∧
      tomlLookup "access_key_id" entries = some (.str creds.access_key_id) ∧
      tomlLookup "secret_access_key" entries = some (.str creds.secret_access_key) := by
  unfold deserializeCredentials at h
  split at h
  · rename_i entries
    split at h
    · cases h
    · rename_i hk
      split at h
      · cases h
      · rename_i hs
        cases h
        exact ⟨entries, rfl, hk, hs⟩
      · cases h
    · cases h
  · cases h

theorem deserializeMetadata_ok {v : TomlValue} {meta : Metadata}
    (h : deserializeMetadata v = .ok meta) :
    ∃ entries, v = .table entries ∧
      tomlLookup "account_id" entries = some (.str meta.account_id) := by
  unfold deserializeMetadata at h
  split at h
  · rename_i entries
    split at h
    · cases h
    · rename_i ha
      cases h
      exact ⟨entries, rfl, ha⟩
    · cases h
  · cases h

theorem deserializeConfig_ok {v : TomlValue} {cfg : Config}
    (h : deserializeConfig v = .ok cfg) :
    ∃ entries centries mentries, v = .table entries ∧
      tomlLookup "credentials" entries = some (.table centries) ∧
      tomlLookup "access_key_id" centries = some (.str cfg.credentials.access_key_id) ∧
      tomlLookup "secret_access_key" centries =
        some (.str cfg.credentials.secret_access_key) ∧
      tomlLookup "metadata" entries = some (.table mentries) ∧
      tomlLookup "account_id" mentries = some (.str cfg.metadata.account_id) := by
  unfold deserializeConfig at h
  split at h
  · rename_i entries
    split at h
    · cases h
    · rename_i credsVal hcv
      split at h
      · cases h
      · rename_i creds hcreds
        split at h
        · cases h
        · rename_i metaVal hmv
          split at h
          · cases h
          · rename_i meta hmeta
            cases h
            obtain ⟨centries, hcv2, hk, hs⟩ := deserializeCredentials_ok hcreds
            obtain ⟨mentries, hmv2, ha⟩ := deserializeMetadata_ok hmeta
            subst hcv2; subst hmv2
            exact ⟨entries, centries, mentries, rfl, hcv, hk, hs, hmv, ha⟩
  · cases h

/-! ### Concrete environments, files and documents for witnesses -/

def envAllSet : Env := fun name =>
  if name = "R2_ACCESS_KEY_ID" then some "ak"
  else if name = "R2_SECRET_ACCESS_KEY" then some "sk"
  else if name = "R2_ACCOUNT_ID" then some "acct"
  else none

def envEmptyKey : Env := fun name =>
  if name = "R2_ACCESS_KEY_ID" then some ""
  else if name = "R2_SECRET_ACCESS_KEY" then some "sk"
  else if name = "R2_ACCOUNT_ID" then some "acct"
  else none

def envPartial : Env := fun name =>
  if name = "R2_SECRET_ACCESS_KEY" then some "sk"
  else if name = "HOME" then some "/home/u"
  else none

def envHomeless : Env := fun name =>
  if name = "R2_SECRET_ACCESS_KEY" then some "sk"
  else if name = "R2_ACCOUNT_ID" then some "acct"
  else none

def envEmptyHome : Env := fun name =>
  if name = "HOME" then some "" else none

def docGood : TomlValue :=
  .table [("credentials", .table [("access_key_id", .str "fk"),
            ("secret_access_key", .str "fsec")]),
          ("metadata", .table [("account_id", .str "facct")])]

def docNoMeta : TomlValue :=
  .table [("credentials", .table [("access_key_id", .str "fk"),
            ("secret_access_key", .str "fsec")])]

def docExtras : TomlValue :=
  .table [("credentials", .table [("access_key_id", .str "k1"),
            ("secret_access_key", .str "s1"), ("extra_key", .str "x")]),
          ("metadata", .table [("account_id", .str "a1"), ("note", .other)]),
          ("unknown_section", .table [("foo", .str "bar")])]

def tomlParseGood : TomlParser := fun contents =>
  if contents = "good config" then .ok docGood
  else if contents = "no metadata" then .ok docNoMeta
  else .error "expected an equals, found an identifier"

def fsGood : FS := fun path =>
  if path = "/home/u/.r2/config" then some "good config" else none

def fsNoMeta : FS := fun path =>
  if path = "/home/u/.r2/config" then some "no metadata" else none

def fsBadSyntax : FS := fun path =>
  if path = "/home/u/.r2/config" then some "malformed!!" else none

def fsRootGood : FS := fun path =>
  if path = ".r2/config" then some "good config" else none

/-! ### Claim theorems -/

/-- C1: For every Move invocation with (bucket, src, dst), the dispatcher
first issues a copy whose copy-source is exactly bucket ++ "/" ++ src and
whose destination is (bucket, dst); the delete for (bucket, src) is issued
iff the copy succeeded; if the copy fails the delete is never attempted and
the copy error is surfaced; if the copy succeeds and the delete fails, no
further call is made and the delete error is surfaced. -/
theorem mv_copy_then_delete (api : RemoteApi)
    (fsBytes : String → Except String (List Nat)) (bucket src dst : String) :
    (∀ e, api.copyObject bucket (bucket ++ "/" ++ src) dst = .error e →
      dispatch api fsBytes (some (.mv bucket src dst)) =
        ([Effect.api (.copyObject bucket (bucket ++ "/" ++ src) dst)],
          .error (.remote e)))
    ∧ (∀ e, api.copyObject bucket (bucket ++ "/" ++ src) dst = .ok () →
        api.deleteObject bucket src = .error e →
      dispatch api fsBytes (some (.mv bucket src dst)) =
        ([Effect.api (.copyObject bucket (bucket ++ "/" ++ src) dst),
          Effect.api (.deleteObject bucket src)], .error (.remote e)))
    ∧ (api.copyObject bucket (bucket ++ "/" ++ src) dst = .ok () →
        api.deleteObject bucket src = .ok () →
      dispatch api fsBytes (some (.mv bucket src dst)) =
        ([Effect.api (.copyObject bucket (bucket ++ "/" ++ src) dst),
          Effect.api (.deleteObject bucket src)], .ok [])) := by
  refine ⟨?_, ?_, ?_⟩
  · intro e he
    simp [dispatch, he]
  · intro e hc hd
    simp [dispatch, hc, hd]
  · intro hc hd
    simp [dispatch, hc, hd]

/-- C1 witness: concrete Move runs in the three outcome scenarios. -/
theorem mv_copy_then_delete_witness :
    dispatch apiCopyFails fsBytesStub (some (.mv "b" "a.txt" "b.txt")) =
      ([Effect.api (.copyObject "b" "b/a.txt" "b.txt")], .error (.remote "copy failed"))
    ∧ dispatch apiDeleteFails fsBytesStub (some (.mv "b" "a.txt" "b.txt")) =
      ([Effect.api (.copyObject "b" "b/a.txt" "b.txt"),
        Effect.api (.deleteObject "b" "a.txt")], .error (.remote "delete failed"))
    ∧ dispatch apiAllOk fsBytesStub (some (.mv "b" "a.txt" "b.txt")) =
      ([Effect.api (.copyObject "b" "b/a.txt" "b.txt"),
        Effect.api (.deleteObject "b" "a.txt")], .ok []) := by
  refine ⟨?_, ?_, ?_⟩
  · exact (mv_copy_then_delete apiCopyFails fsBytesStub "b" "a.txt" "b.txt").1
      "copy failed" rfl
  · exact (mv_copy_then_delete apiDeleteFails fsBytesStub "b" "a.txt" "b.txt").2.1
      "delete failed" rfl rfl
  · exact (mv_copy_then_delete apiAllOk fsBytesStub "b" "a.txt" "b.txt").2.2 rfl rfl

/-- C4 counterexample: the destination "/key" splits into the two segments
"" and "key" — not two non-empty segments — yet the command does not fail
with a UsageError: it reads the local file and issues a put with an empty
bucket name. -/
theorem cp_empty_bucket_not_rejected :
    splitn2 "/key" '/' = ["", "key"]
    ∧ dispatch apiAllOk fsBytesStub (some (.cp "local.txt" "/key")) =
      ([Effect.fsRead "local.txt", Effect.api (.putObject "" "key" [104, 105])],
        .ok []) :=
  ⟨rfl, rfl⟩

/-- C4 (amended): for every cp invocation, if the destination contains no
'/' — so that splitting on the first '/' yields fewer than two segments —
the command fails with UsageError "Destination must be in format
bucket/key" before any network call or filesystem read (empty trace);
segments are not required to be non-empty. -/
theorem cp_no_slash_usage_error (api : RemoteApi)
    (fsBytes : String → Except String (List Nat)) (src dst : String)
    (h : '/' ∉ dst.data) :
    dispatch api fsBytes (some (.cp src dst)) =
      ([], .error (.usage "Destination must be in format bucket/key")) := by
  simp [dispatch, splitn2_no_sep h]

/-- C4 (amended) witness: cp local.txt no-slash-here fails with the usage
error and an empty effect trace. -/
theorem cp_no_slash_usage_error_witness :
    dispatch apiAllOk fsBytesStub (some (.cp "local.txt" "no-slash-here")) =
      ([], .error (.usage "Destination must be in format bucket/key")) :=
  cp_no_slash_usage_error apiAllOk fsBytesStub "local.txt" "no-slash-here" (by decide)

/-- C5: for every cp destination of the form b ++ "/" ++ k with no '/' in
b, the split yields bucket b and key k — the key keeps any further '/'
intact — and the upload puts the file body to (b, k). -/
theorem cp_split_first_slash (api : RemoteApi)
    (fsBytes : String → Except String (List Nat)) (src b k : String)
    (hb : '/' ∉ b.data) (body : List Nat) (hread : fsBytes src = .ok body)
    (hput : api.putObject b k body = .ok ()) :
    splitn2 (b ++ "/" ++ k) '/' = [b, k]
    ∧ dispatch api fsBytes (some (.cp src (b ++ "/" ++ k))) =
      ([Effect.fsRead src, Effect.api (.putObject b k body)], .ok []) := by
  refine ⟨splitn2_sep hb k, ?_⟩
  simp [dispatch, splitn2_sep hb k, hread, hput]

/-- C5 witness: destination my-bucket/folder/file.txt splits into bucket
my-bucket and key folder/file.txt. -/
theorem cp_split_first_slash_witness :
    splitn2 "my-bucket/folder/file.txt" '/' = ["my-bucket", "folder/file.txt"]
    ∧ dispatch apiAllOk fsBytesStub (some (.cp "local.txt" "my-bucket/folder/file.txt")) =
      ([Effect.fsRead "local.txt",
        Effect.api (.putObject "my-bucket" "folder/file.txt" [104, 105])], .ok []) := by
  exact cp_split_first_slash apiAllOk fsBytesStub "local.txt" "my-bucket"
    "folder/file.txt" (by decide) [104, 105] rfl rfl

/-- C8: for every ls invocation with a bucket, the trace is exactly one
object-listing call scoped to that bucket (no other call, no continuation
loop), and on success the output is one line per returned object, the
object key in API order, a missing key rendered as the empty line. -/
theorem ls_bucket_lists_objects (api : RemoteApi)
    (fsBytes : String → Except String (List Nat)) (bucket : String) :
    (dispatch api fsBytes (some (.ls (some bucket)))).1 =
      [Effect.api (.listObjectsV2 bucket)]
    ∧ ∀ objects, api.listObjectsV2 bucket = .ok objects →
        (dispatch api fsBytes (some (.ls (some bucket)))).2 =
          .ok (objects.map (fun o => o.getD "")) := by
  refine ⟨rfl, ?_⟩
  intro objects h
  simp [dispatch, h]

/-- C8 witness: with the stub returning keys a, missing, b for bucket
some-bucket, the run prints "a", "", "b" in that order after exactly one
listing call. -/
theorem ls_bucket_lists_objects_witness :
    (dispatch apiObjs fsBytesStub (some (.ls (some "some-bucket")))).1 =
      [Effect.api (.listObjectsV2 "some-bucket")]
    ∧ (dispatch apiObjs fsBytesStub (some (.ls (some "some-bucket")))).2 =
      .ok ["a", "", "b"] :=
  ⟨(ls_bucket_lists_objects apiObjs fsBytesStub "some-bucket").1,
   (ls_bucket_lists_objects apiObjs fsBytesStub "some-bucket").2
     [some "a", none, some "b"] rfl⟩

/-- C2 counterexample: with all three variables present but the access key
set to the empty string, the env path is still taken — resolution returns
the env triple, empty component included, against a filesystem holding no
readable file at all, so the config file cannot have been read. This
refutes "takes the environment path exactly when all three are present
and non-empty". -/
theorem env_empty_value_still_short_circuits :
    envEmptyKey "R2_ACCESS_KEY_ID" = some ""
    ∧ resolveCredentials envEmptyKey fsNone tomlParseStub = .ok ("", "sk", "acct") :=
  ⟨rfl, rfl⟩

/-- C2 (amended): resolution takes the environment path exactly when all
three variables are present — emptiness is not checked. When all three are
present their values are returned and the config file is never read (the
result is the same for every filesystem and parser); when any one is
absent, resolution is the file arm. -/
theorem env_triple_short_circuits (env : Env) :
    (∀ key secret account, env "R2_ACCESS_KEY_ID" = some key →
      env "R2_SECRET_ACCESS_KEY" = some secret →
      env "R2_ACCOUNT_ID" = some account →
      ∀ (fs : FS) (p : TomlParser),
        resolveCredentials env fs p = .ok (key, secret, account))
    ∧ ((env "R2_ACCESS_KEY_ID" = none ∨ env "R2_SECRET_ACCESS_KEY" = none ∨
        env "R2_ACCOUNT_ID" = none) →
      ∀ (fs : FS) (p : TomlParser),
        resolveCredentials env fs p = fileResolve (env "HOME") fs p) := by
  constructor
  · intro key secret account hk hs ha fs p
    unfold resolveCredentials
    rw [hk, hs, ha]
  · intro h fs p
    exact resolve_fallback env fs p h

/-- C2 (amended) witness: a fully set environment resolves to its values
over an empty filesystem; an environment missing the access key falls to
the file arm. -/
theorem env_triple_short_circuits_witness :
    resolveCredentials envAllSet fsNone tomlParseStub = .ok ("ak", "sk", "acct")
    ∧ resolveCredentials envHomeless fsNone tomlParseStub =
        fileResolve (envHomeless "HOME") fsNone tomlParseStub :=
  ⟨(env_triple_short_circuits envAllSet).1 "ak" "sk" "acct" rfl rfl rfl
      fsNone tomlParseStub,
   (env_triple_short_circuits envHomeless).2 (Or.inl rfl) fsNone tomlParseStub⟩

/-- C3: if any of the three variables is unset, resolution is exactly the
file arm — a function of only the HOME value, the filesystem and the
parser, to which the R2_* variables are not even passed — and any
successful triple is wholly the parsed config file's three fields; no
field-by-field merging across origins can occur. -/
theorem env_partial_falls_through (env : Env) (fs : FS) (p : TomlParser)
    (h : env "R2_ACCESS_KEY_ID" = none ∨ env "R2_SECRET_ACCESS_KEY" = none ∨
      env "R2_ACCOUNT_ID" = none) :
    resolveCredentials env fs p = fileResolve (env "HOME") fs p
    ∧ ∀ t, resolveCredentials env fs p = .ok t →
        ∃ hm contents doc cfg, env "HOME" = some hm ∧
          fs (configPath hm) = some contents ∧ p contents = .ok doc ∧
          deserializeConfig doc = .ok cfg ∧
          t = (cfg.credentials.access_key_id, cfg.credentials.secret_access_key,
            cfg.metadata.account_id) := by
  have hfall := resolve_fallback env fs p h
  refine ⟨hfall, ?_⟩
  intro t ht
  rw [hfall] at ht
  exact fileResolve_ok ht

/-- C3 witness: with only the secret key set in the environment, the run
resolves from the config file, ignoring the one env value that was set. -/
theorem env_partial_falls_through_witness :
    resolveCredentials envPartial fsGood tomlParseGood =
      fileResolve (envPartial "HOME") fsGood tomlParseGood
    ∧ resolveCredentials envPartial fsGood tomlParseGood =
        .ok ("fk", "fsec", "facct") :=
  ⟨(env_partial_falls_through envPartial fsGood tomlParseGood (Or.inl rfl)).1, rfl⟩

/-- C6: on the file path (some variable unset, HOME set, file readable): a
syntactically malformed file fails with a ConfigError carrying the parser
diagnostic; a file whose structure misses a required section or field, or
types one wrongly, fails with a ConfigError carrying the deserialization
diagnostic; and any successful deserialization requires both sections and
every field present as a string — no field is silently defaulted. -/
theorem config_file_errors_surface (env : Env) (fs : FS) (p : TomlParser)
    (hmiss : env "R2_ACCESS_KEY_ID" = none ∨ env "R2_SECRET_ACCESS_KEY" = none ∨
      env "R2_ACCOUNT_ID" = none)
    (home : String) (hhome : env "HOME" = some home)
    (contents : String) (hfile : fs (configPath home) = some contents) :
    (∀ e, p contents = .error e →
      resolveCredentials env fs p = .error (.configError e))
    ∧ (∀ doc e, p contents = .ok doc → deserializeConfig doc = .error e →
      resolveCredentials env fs p = .error (.configError e))
    ∧ (∀ doc cfg, deserializeConfig doc = .ok cfg →
        ∃ entries centries mentries, doc = .table entries ∧
          tomlLookup "credentials" entries = some (.table centries) ∧
          tomlLookup "access_key_id" centries =
            some (.str cfg.credentials.access_key_id) ∧
          tomlLookup "secret_access_key" centries =
            some (.str cfg.credentials.secret_access_key) ∧
          tomlLookup "metadata" entries = some (.table mentries) ∧
          tomlLookup "account_id" mentries = some (.str cfg.metadata.account_id)) := by
  have hfall := resolve_fallback env fs p hmiss
  refine ⟨?_, ?_, ?_⟩
  · intro e he
    rw [hfall, hhome]
    simp [fileResolve, hfile, he]
  · intro doc e hdoc hde
    rw [hfall, hhome]
    simp [fileResolve, hfile, hdoc, hde]
  · intro doc cfg h
    exact deserializeConfig_ok h

/-- C6 witness: a malformed file surfaces the parse diagnostic; a file
missing the metadata section surfaces the missing-field diagnostic. -/
theorem config_file_errors_surface_witness :
    resolveCredentials envPartial fsBadSyntax tomlParseGood =
      .error (.configError "expected an equals, found an identifier")
    ∧ resolveCredentials envPartial fsNoMeta tomlParseGood =
      .error (.configError "missing field metadata") :=
  ⟨(config_file_errors_surface envPartial fsBadSyntax tomlParseGood (Or.inl rfl)
      "/home/u" rfl "malformed!!" rfl).1
      "expected an equals, found an identifier" rfl,
   (config_file_errors_surface envPartial fsNoMeta tomlParseGood (Or.inl rfl)
      "/home/u" rfl "no metadata" rfl).2.1
      docNoMeta "missing field metadata" rfl rfl⟩

/-- C7: whenever resolution succeeds with triple (key, secret, account),
main builds the client configuration once, before and independently of the
subcommand — every parsed command yields the same configuration value —
with region "auto", endpoint https:// ++ account ++
.r2.cloudflarestorage.com, and static credentials (no session token, no
expiry) tagged with provider name "r2". -/
theorem client_config_construction (env : Env) (fs : FS) (p : TomlParser)
    (api : RemoteApi) (fsBytes : String → Except String (List Nat))
    (key secret account : String)
    (h : resolveCredentials env fs p = .ok (key, secret, account)) :
    (∀ args : Args, mainRun env fs p api fsBytes args =
      .ok (mkClientConfig key secret account, dispatch api fsBytes args.command))
    ∧ (mkClientConfig key secret account).region = "auto"
    ∧ (mkClientConfig key secret account).endpointUrl =
        "https://" ++ account ++ ".r2.cloudflarestorage.com"
    ∧ (mkClientConfig key secret account).credentialsProvider =
        { accessKeyId := key, secretAccessKey := secret, sessionToken := none,
          expiresAfter := none, providerName := "r2" } := by
  refine ⟨?_, rfl, rfl, rfl⟩
  intro args
  simp [mainRun, h]

/-- C7 witness: a fully set environment yields the concrete client
configuration with the account-derived endpoint. -/
theorem client_config_construction_witness :
    mainRun envAllSet fsNone tomlParseStub apiAllOk fsBytesStub ⟨none⟩ =
      .ok (mkClientConfig "ak" "sk" "acct", dispatch apiAllOk fsBytesStub none)
    ∧ (mkClientConfig "ak" "sk" "acct").endpointUrl =
      "https://acct.r2.cloudflarestorage.com" :=
  ⟨(client_config_construction envAllSet fsNone tomlParseStub apiAllOk fsBytesStub
      "ak" "sk" "acct" rfl).1 ⟨none⟩, rfl⟩

/-- C9: deserializing a table whose credentials sub-table carries the two
credential string fields and whose metadata sub-table carries the account
id succeeds with exactly those values, whatever other keys or sections the
tables also carry — extras are ignored, never an error. -/
theorem config_extra_keys_ignored
    (entries centries mentries : List (String × TomlValue))
    (key secret account : String)
    (hc : tomlLookup "credentials" entries = some (.table centries))
    (hk : tomlLookup "access_key_id" centries = some (.str key))
    (hs : tomlLookup "secret_access_key" centries = some (.str secret))
    (hm : tomlLookup "metadata" entries = some (.table mentries))
    (ha : tomlLookup "account_id" mentries = some (.str account)) :
    deserializeConfig (.table entries) = .ok ⟨⟨key, secret⟩, ⟨account⟩⟩ := by
  simp [deserializeConfig, deserializeCredentials, deserializeMetadata,
    hc, hk, hs, hm, ha]

/-- C9 witness: a document with an extra credentials key, an extra
metadata key of non-string type, and a whole unknown section still
deserializes to the four required values. -/
theorem config_extra_keys_ignored_witness :
    deserializeConfig docExtras = .ok ⟨⟨"k1", "s1"⟩, ⟨"a1"⟩⟩ := by
  unfold docExtras
  exact config_extra_keys_ignored _ _ _ _ _ _ rfl rfl rfl rfl rfl

/-- C10: on the fallback path the home directory comes only from the HOME
variable: if HOME is unset the run fails right there with the
variable-lookup error, even though some R2_* variables were set; an empty
HOME is accepted without validation, the config path becomes the relative
".r2/config", and resolution can succeed from a file there. -/
theorem home_env_only (env : Env) (fs : FS) (p : TomlParser)
    (hmiss : env "R2_ACCESS_KEY_ID" = none ∨ env "R2_SECRET_ACCESS_KEY" = none ∨
      env "R2_ACCOUNT_ID" = none) :
    (env "HOME" = none → resolveCredentials env fs p = .error (.varError "HOME"))
    ∧ (env "HOME" = some "" →
        configPath "" = ".r2/config"
        ∧ resolveCredentials env fs p = fileResolve (some "") fs p
        ∧ ∀ contents doc cfg, fs ".r2/config" = some contents →
            p contents = .ok doc → deserializeConfig doc = .ok cfg →
            resolveCredentials env fs p =
              .ok (cfg.credentials.access_key_id,
                cfg.credentials.secret_access_key, cfg.metadata.account_id)) := by
  have hfall := resolve_fallback env fs p hmiss
  have hcp : configPath "" = ".r2/config" := rfl
  constructor
  · intro hh
    rw [hfall, hh]
    rfl
  · intro hh
    refine ⟨hcp, by rw [hfall, hh], ?_⟩
    intro contents doc cfg hcontents hdoc hcfg
    rw [hfall, hh]
    simp [fileResolve, hcp, hcontents, hdoc, hcfg]

/-- C10 witness: two R2_* variables set but HOME unset fails on HOME; an
empty HOME resolves from the relative path ".r2/config". -/
theorem home_env_only_witness :
    resolveCredentials envHomeless fsNone tomlParseStub = .error (.varError "HOME")
    ∧ resolveCredentials envEmptyHome fsRootGood tomlParseGood =
        .ok ("fk", "fsec", "facct") :=
  ⟨(home_env_only envHomeless fsNone tomlParseStub (Or.inl rfl)).1 rfl,
   ((home_env_only envEmptyHome fsRootGood tomlParseGood (Or.inl rfl)).2 rfl).2.2
      "good config" docGood ⟨⟨"fk", "fsec"⟩, ⟨"facct"⟩⟩ rfl rfl rfl⟩

end R2
